import Mathlib

/-
Verification of the event-processing pipeline of the lifecycle-manager
service (package service: server.go, lifecycle events, heartbeat driver).

The Go code is shallowly embedded: every function below mirrors the
control flow of its Go counterpart, with side-effecting calls (queue
deletes, scaling-group actions, published cluster events, metric
updates) recorded in explicit trace records, int64 arithmetic carried
out on Int with truncated division (Int.tdiv), and float64 latencies
carried out on the rationals.
-/

namespace LifecycleManager

/-- A cluster node referenced by an event; only the name is relevant to
the embedded control flow. -/
structure KubeNode where
  name : String
deriving DecidableEq, Repr

/-- LifecycleEvent: one in-flight termination, as in the Go struct.
Identifier fields are parsed from the message body; receiptHandle,
queueURL, referencedNode, heartbeatInterval, startTime and the three
completion flags are per-run state. -/
structure LifecycleEvent where
  LifecycleHookName : String
  AccountID : String
  RequestID : String
  LifecycleTransition : String
  AutoScalingGroupName : String
  EC2InstanceID : String
  LifecycleActionToken : String
  receiptHandle : String
  queueURL : String
  referencedNode : KubeNode
  heartbeatInterval : Int
  startTime : ℚ
  drainCompleted : Bool
  deregisterCompleted : Bool
  eventCompleted : Bool
deriving DecidableEq, Repr

/-- The Go zero value LifecycleEvent, as produced by the composite
literal in the guards of FailEvent and RejectEvent. -/
def emptyLifecycleEvent : LifecycleEvent :=
  { LifecycleHookName := ""
    AccountID := ""
    RequestID := ""
    LifecycleTransition := ""
    AutoScalingGroupName := ""
    EC2InstanceID := ""
    LifecycleActionToken := ""
    receiptHandle := ""
    queueURL := ""
    referencedNode := { name := "" }
    heartbeatInterval := 0
    startTime := 0
    drainCompleted := false
    deregisterCompleted := false
    eventCompleted := false }

/-- A Go value as seen by reflect.DeepEqual: either a pointer to a
LifecycleEvent or a LifecycleEvent struct value. The dynamic type of
the value is part of the comparison. -/
inductive GoVal where
  | ptrEvent (e : LifecycleEvent)
  | structEvent (e : LifecycleEvent)
deriving DecidableEq, Repr

/-- reflect.DeepEqual: pointers are deeply equal when the pointed-to
values are; values of distinct dynamic types are never deeply equal. -/
def deepEqual : GoVal → GoVal → Bool
  | .ptrEvent a, .ptrEvent b => a = b
  | .structEvent a, .structEvent b => a = b
  | .ptrEvent _, .structEvent _ => false
  | .structEvent _, .ptrEvent _ => false

/-- Manager state relevant to the embedded operations: the work queue
and the bookkeeping counters. Field avarageLatency keeps the spelling
of the Go source. -/
structure Manager where
  workQueue : List LifecycleEvent
  completedEvents : Nat
  failedEvents : Nat
  rejectedEvents : Nat
  avarageLatency : ℚ
deriving DecidableEq, Repr

/-- The manager as created at startup: Go zero-initializes the counters
and the running latency, and the work queue starts empty. -/
def zeroManager : Manager :=
  { workQueue := []
    completedEvents := 0
    failedEvents := 0
    rejectedEvents := 0
    avarageLatency := 0 }

/-! ## handleEvent (claim C1)

handleEvent takes an accepted event through the drain stage and the
load-balancer deregistration stage. The embedding takes the result of
each stage call as a parameter (none = nil error) and mirrors the body:
the single err variable is assigned the drainNodeTarget result, then
reassigned the drainLoadbalancerTarget result, and only the final value
is compared with nil and returned. -/

/-- Observable side effects of one handleEvent run: failure-counter
bumps per stage, and whether the in-progress node annotation was
cleared at the end. -/
structure HandleTrace where
  drainFailuresCounted : Nat
  lbFailuresCounted : Nat
  inProgressAnnotationCleared : Bool
deriving DecidableEq, Repr

/-- handleEvent body, given the error results of the two stage calls.
Mirrors server.go: err = drainNodeTarget(event) bumps the drain failure
counter when non-nil, then err = drainLoadbalancerTarget(event)
reassigns the same variable, then the final err is returned when
non-nil; otherwise the in-progress annotation is cleared and nil is
returned. -/
def handleEvent (drainResult lbResult : Option String) :
    Option String × HandleTrace :=
  let drainFailures := if drainResult.isSome then 1 else 0
  let err := lbResult
  let lbFailures := if lbResult.isSome then 1 else 0
  match err with
  | some e => (some e, { drainFailuresCounted := drainFailures,
                         lbFailuresCounted := lbFailures,
                         inProgressAnnotationCleared := false })
  | none => (none, { drainFailuresCounted := drainFailures,
                     lbFailuresCounted := lbFailures,
                     inProgressAnnotationCleared := true })

/-! ## Poller loop body (claim C7) -/

/-- Observable behavior of one poller iteration that did not crash:
whether the receive error was logged, how long the loop slept, and
which messages were forwarded onto the event stream. -/
structure PollIteration where
  receiveErrorLogged : Bool
  sleptSeconds : Int
  forwardedMessages : List String
deriving DecidableEq, Repr

/-- One iteration of the newPoller loop body, given the ReceiveMessage
result (output, err). Mirrors server.go: when err is non-nil the error
is logged and the loop sleeps PollingIntervalSeconds, but the body then
falls through unconditionally to len(output.Messages) and the forward
loop; when output is nil that field access dereferences a nil pointer,
modelled as none (the goroutine panics). -/
def pollerIteration (pollingIntervalSeconds : Int)
    (output : Option (List String)) (receiveErr : Option String) :
    Option PollIteration :=
  let logged := receiveErr.isSome
  let slept := if receiveErr.isSome then pollingIntervalSeconds else 0
  match output with
  | none => none
  | some msgs => some { receiveErrorLogged := logged,
                        sleptSeconds := slept,
                        forwardedMessages := msgs }

/-! ## Crash resume in Start (claim C10) -/

/-- The crash-resume loop of Start, given the deserializer and the map
of in-progress annotations as a list of (node name, annotation value)
pairs. Mirrors server.go: entries with an empty annotation value are
skipped; otherwise deserializeMessage is called, a failure is only
logged, and a worker goroutine is spawned with the resulting message
either way. Each output entry is one spawned worker together with the
message it was started with (none = the nil message left by a failed
deserialization). -/
def resumeInProgressEvents (deserializeMessage : String → Option String)
    (inProgressEvents : List (String × String)) :
    List (String × Option String) :=
  inProgressEvents.filterMap (fun p =>
    if p.2 = "" then none else some (p.1, deserializeMessage p.2))

/-! ## FailEvent and RejectEvent (claims C3 and C9) -/

/-- Observable side effects of one FailEvent call. -/
structure FailTrace where
  failureEventsPublished : Nat
  abandonActionCalls : Nat
  deleteMessageCalls : Nat
deriving DecidableEq, Repr

/-- FailEvent(err, event, abandon). Mirrors server.go: increments
failedEvents, sets eventCompleted on the event, publishes one failure
cluster event, calls CompleteLifecycleAction(ABANDON) once when abandon
is set, then guards on reflect.DeepEqual(event, LifecycleEvent zero
value) - a pointer compared against a struct value - returning early
without deleting when the guard fires, and otherwise calls
deleteMessage once. -/
def FailEvent (mgr : Manager) (event : LifecycleEvent) (abandon : Bool) :
    Manager × LifecycleEvent × FailTrace :=
  let mgr := { mgr with failedEvents := mgr.failedEvents + 1 }
  let event := { event with eventCompleted := true }
  let abandonCalls : Nat := if abandon then 1 else 0
  if deepEqual (.ptrEvent event) (.structEvent emptyLifecycleEvent) then
    (mgr, event, { failureEventsPublished := 1,
                   abandonActionCalls := abandonCalls,
                   deleteMessageCalls := 0 })
  else
    (mgr, event, { failureEventsPublished := 1,
                   abandonActionCalls := abandonCalls,
                   deleteMessageCalls := 1 })

/-- Observable side effects of one RejectEvent call. -/
structure RejectTrace where
  deleteMessageCalls : Nat
deriving DecidableEq, Repr

/-- RejectEvent(err, event). Mirrors server.go: increments
rejectedEvents, guards on reflect.DeepEqual(event, LifecycleEvent zero
value) - again a pointer against a struct value - returning early
without deleting when the guard fires, and otherwise calls
deleteMessage once. -/
def RejectEvent (mgr : Manager) (event : LifecycleEvent) :
    Manager × RejectTrace :=
  let mgr := { mgr with rejectedEvents := mgr.rejectedEvents + 1 }
  if deepEqual (.ptrEvent event) (.structEvent emptyLifecycleEvent) then
    (mgr, { deleteMessageCalls := 0 })
  else
    (mgr, { deleteMessageCalls := 1 })

/-! ## CompleteEvent and the running average latency (claim C5) -/

/-- The latency update performed at the top of CompleteEvent:
if avarageLatency == 0 it becomes t, otherwise (avarageLatency + t)/2. -/
def updateAvarageLatency (avg t : ℚ) : ℚ :=
  if avg = 0 then t else (avg + t) / 2

/-- Observable side effects of one CompleteEvent call. One delete,
one CONTINUE lifecycle action and one published success event happen
per work-queue entry deeply equal to the completed event. -/
structure CompleteTrace where
  deleteMessageCalls : Nat
  continueActionCalls : Nat
  successEventsPublished : Nat
deriving DecidableEq, Repr

/-- CompleteEvent(event) with t the elapsed seconds since the event
started. Mirrors server.go: updates avarageLatency by
updateAvarageLatency, rebuilds the work queue keeping the entries not
deeply equal to the event (the queue holds pointers, so DeepEqual
compares the pointed-to values), performs the delete/continue/publish
actions once per matching entry, and increments completedEvents. -/
def CompleteEvent (mgr : Manager) (event : LifecycleEvent) (t : ℚ) :
    Manager × CompleteTrace :=
  let avg := updateAvarageLatency mgr.avarageLatency t
  let matched := mgr.workQueue.countP (fun e => e == event)
  let newQueue := mgr.workQueue.filter (fun e => e != event)
  ({ mgr with workQueue := newQueue,
              completedEvents := mgr.completedEvents + 1,
              avarageLatency := avg },
   { deleteMessageCalls := matched,
     continueActionCalls := matched,
     successEventsPublished := matched })

/-- The manager state after a sequence of CompleteEvent calls with the
given elapsed times. -/
def runCompletions (mgr : Manager) (event : LifecycleEvent) (ts : List ℚ) :
    Manager :=
  ts.foldl (fun m t => (CompleteEvent m event t).1) mgr

/-- The recurrence named by the specification: the average after the
first completion is t1, and every later completion t replaces the
average a by (a + t)/2. -/
def specSmoothing : List ℚ → ℚ
  | [] => 0
  | t :: rest => rest.foldl (fun a ti => (a + ti) / 2) t

/-! ## Load-balancer deregistration stage (claims C2 and C8)

The deregister phase of drainLoadbalancerTarget walks the active pools
serially. The embedding takes the outcome of each deregister call as
data attached to the pool; the two Go loops (classic ELBs and v2
target groups) have identical structure, differing only in the pool
identifier type and in the names of the two skippable error codes, so
a single polymorphic loop embeds both. The per-iteration
event.eventCompleted early return is not taken in the runs modelled
here (the event is not completed mid-loop). -/

/-- Outcome of one deregister call on a pool. poolNotFound stands for
ErrCodeAccessPointNotFoundException on classic ELBs and
ErrCodeTargetGroupNotFoundException on target groups; targetInvalid
stands for ErrCodeInvalidEndPointException and
ErrCodeInvalidTargetException. -/
inductive DeregResult where
  | success
  | poolNotFound
  | targetInvalid
  | otherFailure (msg : String)
deriving DecidableEq, Repr

/-- Observable behavior of one deregister loop: the pools recorded as
successfully requested (in order), the errors sent on the error
channel (in order), and the number of failure cluster events
published inside the loop. -/
structure DeregTrace (α : Type) where
  deregistered : List α
  errorsSent : List String
  failureEventsPublished : Nat
deriving DecidableEq, Repr

/-- The deregister loop of drainLoadbalancerTarget. Mirrors server.go:
on success the pool is appended to the deregistered list; on the two
skippable error codes the error is only logged and the loop continues;
on any other error the error is sent onto the error channel, one
failure cluster event is published, and the loop still continues. -/
def deregisterLoop {α : Type} : List (α × DeregResult) → DeregTrace α
  | [] => { deregistered := [], errorsSent := [], failureEventsPublished := 0 }
  | (pool, r) :: rest =>
    let tr := deregisterLoop rest
    match r with
    | .success => { tr with deregistered := pool :: tr.deregistered }
    | .poolNotFound => tr
    | .targetInvalid => tr
    | .otherFailure msg =>
      { tr with errorsSent := msg :: tr.errorsSent,
                failureEventsPublished := tr.failureEventsPublished + 1 }

/-- The count the wait group is sized with: wg.Add(workQueueLength)
where workQueueLength = len(activeTargetGroups) +
len(activeLoadBalancers), computed before the deregister phase. -/
def wgAddCount (activeLoadBalancers : List String)
    (activeTargetGroups : List (String × Int)) : Nat :=
  activeLoadBalancers.length + activeTargetGroups.length

/-- The number of waiter goroutines actually spawned: one per entry of
deregisteredLoadBalancers and one per entry of
deregisteredTargetGroups. -/
def spawnedWaiters (elbResults : List (String × DeregResult))
    (tgResults : List ((String × Int) × DeregResult)) : Nat :=
  (deregisterLoop elbResults).deregistered.length +
    (deregisterLoop tgResults).deregistered.length

/-! ## Heartbeat driver (claim C6)

sendHeartbeat runs per event; the embedding takes the completion flag
and the heartbeat API result as predicates over the iteration number
and returns the number of loop iterations performed. All arithmetic is
Go int64 arithmetic: Int with truncated division. -/

/-- The sendHeartbeat for-loop, entered with the iteration counter at
count. Mirrors the loop body: iterationCount++ and sleep, then return
if event.eventCompleted, then return if iterationCount has reached
maxIterations, then return if the RecordLifecycleActionHeartbeat call
fails; otherwise loop. The result is the number of iterations the loop
body ran. -/
def heartbeatLoop (maxIterations : Int) (completed apiFails : Int → Bool)
    (count : Int) : Int :=
  if completed (count + 1) then count + 1
  else if count + 1 ≥ maxIterations then count + 1
  else if apiFails (count + 1) then count + 1
  else heartbeatLoop maxIterations completed apiFails (count + 1)
termination_by (maxIterations - count).toNat
decreasing_by omega

/-- sendHeartbeat(client, event). Mirrors the function: interval is the
heartbeat interval of the event, recommendedInterval = interval / 2 in
int64 arithmetic, and maxIterations = 3600 / recommendedInterval. When
recommendedInterval is zero the Go expression 3600/recommendedInterval
is an integer division by zero and the goroutine panics, modelled as
none; otherwise the result is the number of loop iterations performed
before the driver returned. -/
def sendHeartbeat (interval : Int) (completed apiFails : Int → Bool) :
    Option Int :=
  let recommendedInterval := Int.tdiv interval 2
  if recommendedInterval = 0 then none
  else some (heartbeatLoop (Int.tdiv 3600 recommendedInterval)
    completed apiFails 0)

/-- The iteration bound named by the specification: the ceiling of
3600 / (heartbeatInterval/2), with the inner division the int64
division of the code. -/
def specHeartbeatCeiling (interval : Int) : Int :=
  (3600 + Int.tdiv interval 2 - 1) / Int.tdiv interval 2

/-! ## Work-queue duplicate handling (claim C4)

Duplicate detection happens in newWorker via IsAlreadyExist, and the
append happens later in Process via AddEvent; the two are separate
critical sections. The interleaved system below has one transition per
queue-touching operation, with a checked list recording the workers
that have passed the dedup check but not yet appended. The atomic
system merges each check with its append into a single transition,
which is the granularity the claimed invariant needs. -/

/-- Modelled from the spec: the method LifecycleEvent.IsAlreadyExist is
not part of the sources at hand; per the specification, duplicate
detection compares requestId and instanceId against the current work
queue. -/
def IsAlreadyExist (queue : List LifecycleEvent) (event : LifecycleEvent) :
    Bool :=
  queue.any (fun e =>
    e.RequestID == event.RequestID && e.EC2InstanceID == event.EC2InstanceID)

/-- No two work-queue entries share the (requestId, instanceId) pair. -/
def NoDuplicateKeys (queue : List LifecycleEvent) : Prop :=
  queue.Pairwise (fun a b =>
    ¬ (a.RequestID = b.RequestID ∧ a.EC2InstanceID = b.EC2InstanceID))

/-- State of the manager work queue together with the workers that have
passed the IsAlreadyExist check in newWorker but have not yet executed
AddEvent in Process. -/
structure WorkQueueState where
  queue : List LifecycleEvent
  checked : List LifecycleEvent
deriving DecidableEq, Repr

/-- The queue-touching operations at the granularity of the code: the
dedup check in newWorker and the append in AddEvent are separate
transitions, so the checks of two workers may both run before either
append. CompleteEvent removes the matching entries; FailEvent and
RejectEvent leave the queue unchanged. -/
inductive QueueStep : WorkQueueState → WorkQueueState → Prop where
  | dedupCheck (s : WorkQueueState) (ev : LifecycleEvent) :
      IsAlreadyExist s.queue ev = false →
      QueueStep s { queue := s.queue, checked := ev :: s.checked }
  | addEvent (s : WorkQueueState) (ev : LifecycleEvent) :
      ev ∈ s.checked →
      QueueStep s { queue := s.queue ++ [ev], checked := s.checked.erase ev }
  | completeEvent (s : WorkQueueState) (ev : LifecycleEvent) :
      QueueStep s { queue := s.queue.filter (fun e => e != ev),
                    checked := s.checked }
  | failEvent (s : WorkQueueState) :
      QueueStep s s
  | rejectEvent (s : WorkQueueState) :
      QueueStep s s

/-- The initial state: empty work queue, no worker past its check. -/
def initialWorkQueueState : WorkQueueState :=
  { queue := [], checked := [] }

/-- A state of the interleaved system reachable from startup. -/
def QueueReachable (s : WorkQueueState) : Prop :=
  Relation.ReflTransGen QueueStep initialWorkQueueState s

/-- The same operations with each dedup check fused atomically with its
AddEvent: a worker appends only if its key is absent at the moment of
the append, and rejects otherwise. -/
inductive AtomicQueueStep : List LifecycleEvent → List LifecycleEvent → Prop where
  | workerAddEvent (q : List LifecycleEvent) (ev : LifecycleEvent) :
      IsAlreadyExist q ev = false →
      AtomicQueueStep q (q ++ [ev])
  | workerRejectDuplicate (q : List LifecycleEvent) (ev : LifecycleEvent) :
      IsAlreadyExist q ev = true →
      AtomicQueueStep q q
  | completeEvent (q : List LifecycleEvent) (ev : LifecycleEvent) :
      AtomicQueueStep q (q.filter (fun e => e != ev))
  | failEvent (q : List LifecycleEvent) :
      AtomicQueueStep q q
  | rejectEvent (q : List LifecycleEvent) :
      AtomicQueueStep q q

/-- A work queue reachable from startup in the atomic system. -/
def AtomicQueueReachable (q : List LifecycleEvent) : Prop :=
  Relation.ReflTransGen AtomicQueueStep [] q

/-- The event used in the duplicate counterexample trace; field values
follow the repository test fixtures. -/
def sampleEvent : LifecycleEvent :=
  { LifecycleHookName := "my-hook"
    AccountID := "12345689012"
    RequestID := "63f5b5c2-58b3-0574-b7d5-b3162d0268f0"
    LifecycleTransition := "autoscaling:EC2_INSTANCE_TERMINATING"
    AutoScalingGroupName := "my-asg"
    EC2InstanceID := "i-123486890234"
    LifecycleActionToken := "cc34960c-1e41-4703-a665-bdb3e5b81ad3"
    receiptHandle := "MbZj6wDWli"
    queueURL := "some-queue"
    referencedNode := { name := "node-1" }
    heartbeatInterval := 60
    startTime := 0
    drainCompleted := false
    deregisterCompleted := false
    eventCompleted := false }

/-! ## Theorems -/

/-- C1, counterexample: a run in which drainNodeTarget fails with a
drain error and drainLoadbalancerTarget succeeds makes handleEvent
return nil, although the claim requires a non-nil error whenever
either stage errored: the err variable is reassigned by the second
stage call and the drain error is lost. -/
theorem claim_C1_counterexample :
    (some "drain failed" : Option String) ≠ none ∧
    (handleEvent (some "drain failed") none).1 = none := by
  exact ⟨by simp, rfl⟩

/-- C1, amended: handleEvent returns exactly the drainLoadbalancerTarget
result, so it returns a non-nil error if and only if the
load-balancer stage errored; a drainNodeTarget error alone is only
counted in the drain-failure metric and is not propagated. -/
theorem claim_C1_amended (drainResult lbResult : Option String) :
    (handleEvent drainResult lbResult).1 = lbResult ∧
    ((handleEvent drainResult lbResult).1 ≠ none ↔ lbResult ≠ none) ∧
    (handleEvent drainResult lbResult).2.drainFailuresCounted =
      (if drainResult.isSome then 1 else 0) ∧
    (handleEvent drainResult lbResult).2.lbFailuresCounted =
      (if lbResult.isSome then 1 else 0) ∧
    (handleEvent drainResult lbResult).2.inProgressAnnotationCleared =
      lbResult.isNone := by
  cases lbResult <;> simp [handleEvent]

/-- C3: for every manager state, every event (the zero-valued partial
event included) and every abandon flag, FailEvent increments the
failed counter by one, sets eventCompleted, publishes exactly one
failure event, reports Abandon exactly once when abandon is set and
never otherwise, and deletes the queue message exactly once. -/
theorem claim_C3 (mgr : Manager) (event : LifecycleEvent) (abandon : Bool) :
    (FailEvent mgr event abandon).1.failedEvents = mgr.failedEvents + 1 ∧
    (FailEvent mgr event abandon).2.1.eventCompleted = true ∧
    (FailEvent mgr event abandon).2.2.failureEventsPublished = 1 ∧
    (FailEvent mgr event abandon).2.2.abandonActionCalls =
      (if abandon then 1 else 0) ∧
    (FailEvent mgr event abandon).2.2.deleteMessageCalls = 1 := by
  simp [FailEvent, deepEqual]

/-- C9: the emptiness guard reflect.DeepEqual(event, LifecycleEvent
zero value) compares a pointer with a struct value, values of distinct
dynamic types, so it is false for every event, and both FailEvent and
RejectEvent always reach their deleteMessage call exactly once, even
for the zero-valued event. -/
theorem claim_C9 (mgr : Manager) (event : LifecycleEvent) (abandon : Bool) :
    deepEqual (.ptrEvent event) (.structEvent emptyLifecycleEvent) = false ∧
    (FailEvent mgr event abandon).2.2.deleteMessageCalls = 1 ∧
    (RejectEvent mgr event).2.deleteMessageCalls = 1 := by
  refine ⟨rfl, ?_, ?_⟩ <;> simp [FailEvent, RejectEvent, deepEqual]

/-- C7, counterexample: the poller loop body is not safe for every
possible (output, error) receive result: for a nil output with a
non-nil error, the unguarded access to the message list of the output
after the error branch dereferences a nil pointer and the poller
crashes (modelled as none). -/
theorem claim_C7_counterexample :
    pollerIteration 10 none (some "receive error") = none := rfl

/-- C7, amended: for every receive result whose output is non-nil (as
the concrete queue client guarantees even on error), the poller
iteration logs the error, sleeps PollingIntervalSeconds exactly when
the receive errored, forwards the returned messages, and does not
crash. -/
theorem claim_C7_amended (pollingIntervalSeconds : Int)
    (msgs : List String) (receiveErr : Option String) :
    pollerIteration pollingIntervalSeconds (some msgs) receiveErr =
      some { receiveErrorLogged := receiveErr.isSome,
             sleptSeconds := if receiveErr.isSome then pollingIntervalSeconds
                             else 0,
             forwardedMessages := msgs } := rfl

/-- C10: every in-progress annotation entry with a non-empty value
spawns exactly one worker, whatever the deserializer does: the number
of spawned workers equals the number of non-empty entries, and each
non-empty entry yields a worker started with the deserialization
result, including the invalid nil message of a failed
deserialization. -/
theorem claim_C10 (deserializeMessage : String → Option String)
    (inProgressEvents : List (String × String)) :
    (resumeInProgressEvents deserializeMessage inProgressEvents).length =
      inProgressEvents.countP (fun p => !(p.2 == "")) ∧
    ∀ node ann, (node, ann) ∈ inProgressEvents → ann ≠ "" →
      (node, deserializeMessage ann) ∈
        resumeInProgressEvents deserializeMessage inProgressEvents := by
  constructor
  · induction inProgressEvents with
    | nil => rfl
    | cons p rest ih =>
      by_cases h : p.2 = "" <;>
        simp [resumeInProgressEvents, List.filterMap_cons, h,
          List.countP_cons] at ih ⊢ <;> omega
  · intro node ann hmem hne
    simp only [resumeInProgressEvents, List.mem_filterMap]
    exact ⟨(node, ann), hmem, by simp [hne]⟩

/-- C10, witness: a single non-empty annotation entry whose
deserialization fails still spawns one worker carrying the nil
message. -/
theorem claim_C10_witness :
    ("node-1", "some-payload") ∈ [("node-1", "some-payload")] ∧
    "some-payload" ≠ "" ∧
    ("node-1", (none : Option String)) ∈
      resumeInProgressEvents (fun _ => none)
        [("node-1", "some-payload")] := by
  refine ⟨by simp, by decide, ?_⟩
  exact (claim_C10 (fun _ => none) [("node-1", "some-payload")]).2
    "node-1" "some-payload" (by simp) (by decide)

/-- Helper: the trace of one deregister loop, by induction on the pool
list: the deregistered list keeps exactly the pools whose call
succeeded, the error channel receives exactly the non-skippable error
messages, and one failure cluster event is published per non-skippable
error. -/
theorem deregisterLoop_trace {α : Type} (pools : List (α × DeregResult)) :
    (deregisterLoop pools).deregistered =
      (pools.filter (fun p => p.2 == DeregResult.success)).map Prod.fst ∧
    (deregisterLoop pools).errorsSent =
      pools.filterMap (fun p =>
        match p.2 with
        | .otherFailure msg => some msg
        | _ => none) ∧
    (deregisterLoop pools).failureEventsPublished =
      pools.countP (fun p =>
        match p.2 with
        | .otherFailure _ => true
        | _ => false) := by
  induction pools with
  | nil => exact ⟨rfl, rfl, rfl⟩
  | cons p rest ih =>
    obtain ⟨pool, r⟩ := p
    cases r <;>
      simp [deregisterLoop, List.filter_cons, List.filterMap_cons,
        List.countP_cons, ih.1, ih.2.1, ih.2.2]

/-- C8, counterexample: a pool whose deregister call returns the
NotFound error publishes no failure cluster event (it is only logged
and skipped), while the claim requires one; the failure cluster event
is instead published on the non-skippable errors, together with the
error-channel send. -/
theorem claim_C8_counterexample :
    (deregisterLoop [(("my-classic-elb" : String),
        DeregResult.poolNotFound)]).failureEventsPublished = 0 ∧
    (deregisterLoop [(("my-classic-elb" : String),
        DeregResult.otherFailure "some-other-error")]).failureEventsPublished
      = 1 := by
  exact ⟨rfl, rfl⟩

/-- C8, amended: in the deregister phase, a pool whose call returns a
NotFound, InvalidEndpoint or InvalidTarget error is only logged and
skipped, publishing nothing; for every other deregister error the
error is sent onto the error channel and one failure cluster event is
published; in both cases the loop continues, processing the entire
pool list. -/
theorem claim_C8_amended {α : Type} (pools : List (α × DeregResult)) :
    (deregisterLoop pools).errorsSent =
      pools.filterMap (fun p =>
        match p.2 with
        | .otherFailure msg => some msg
        | _ => none) ∧
    (deregisterLoop pools).failureEventsPublished =
      pools.countP (fun p =>
        match p.2 with
        | .otherFailure _ => true
        | _ => false) ∧
    (deregisterLoop pools).deregistered =
      (pools.filter (fun p => p.2 == DeregResult.success)).map Prod.fst := by
  obtain ⟨h1, h2, h3⟩ := deregisterLoop_trace pools
  exact ⟨h2, h3, h1⟩

/-- C2, counterexample: with one active classic ELB whose deregister
call fails with a non-skippable error, the wait group is sized with 1
but no waiter is ever spawned, so the count the wait group is sized
with differs from the number of waiters that are spawned and signal
completion. -/
theorem claim_C2_counterexample :
    wgAddCount ["my-classic-elb"] [] = 1 ∧
    spawnedWaiters
      [("my-classic-elb", DeregResult.otherFailure "some-other-error")]
      [] = 0 := by
  exact ⟨rfl, rfl⟩

/-- C2, amended: each successfully-requested deregistration gets
exactly one waiter (the spawned waiters are exactly the pools whose
deregister call succeeded), but the wait group is sized with the
number of active pools, which only bounds the number of spawned
waiters from above: the two counts agree exactly when every deregister
call succeeds. -/
theorem claim_C2_amended (elbResults : List (String × DeregResult))
    (tgResults : List ((String × Int) × DeregResult)) :
    spawnedWaiters elbResults tgResults =
      elbResults.countP (fun p => p.2 == DeregResult.success) +
        tgResults.countP (fun p => p.2 == DeregResult.success) ∧
    spawnedWaiters elbResults tgResults ≤
      wgAddCount (elbResults.map Prod.fst) (tgResults.map Prod.fst) ∧
    (spawnedWaiters elbResults tgResults =
        wgAddCount (elbResults.map Prod.fst) (tgResults.map Prod.fst) ↔
      (∀ p ∈ elbResults, p.2 = DeregResult.success) ∧
        (∀ p ∈ tgResults, p.2 = DeregResult.success)) := by
  have he := (deregisterLoop_trace elbResults).1
  have ht := (deregisterLoop_trace tgResults).1
  have hcount : spawnedWaiters elbResults tgResults =
      elbResults.countP (fun p => p.2 == DeregResult.success) +
        tgResults.countP (fun p => p.2 == DeregResult.success) := by
    simp [spawnedWaiters, he, ht, List.countP_eq_length_filter]
  have hle1 : elbResults.countP (fun p => p.2 == DeregResult.success) ≤
      elbResults.length := List.countP_le_length _
  have hle2 : tgResults.countP (fun p => p.2 == DeregResult.success) ≤
      tgResults.length := List.countP_le_length _
  have hwg : wgAddCount (elbResults.map Prod.fst) (tgResults.map Prod.fst) =
      elbResults.length + tgResults.length := by
    simp [wgAddCount]
  refine ⟨hcount, ?_, ?_⟩
  · rw [hcount, hwg]; omega
  · rw [hcount, hwg]
    constructor
    · intro h
      have q1 : elbResults.countP
          (fun p => p.2 == DeregResult.success) = elbResults.length := by omega
      have q2 : tgResults.countP
          (fun p => p.2 == DeregResult.success) = tgResults.length := by omega
      refine ⟨fun p hp => ?_, fun p hp => ?_⟩
      · have := List.countP_eq_length.mp q1 p hp
        simpa using this
      · have := List.countP_eq_length.mp q2 p hp
        simpa using this
    · intro h
      obtain ⟨h1, h2⟩ := h
      have q1 : elbResults.countP (fun p => p.2 == DeregResult.success) =
          elbResults.length :=
        List.countP_eq_length.mpr (fun p hp => by simp [h1 p hp])
      have q2 : tgResults.countP (fun p => p.2 == DeregResult.success) =
          tgResults.length :=
        List.countP_eq_length.mpr (fun p hp => by simp [h2 p hp])
      omega

/-- Helper: the average latency of the manager after a sequence of
completions is the fold of the CompleteEvent update over the elapsed
times. -/
theorem runCompletions_avarageLatency (event : LifecycleEvent) :
    ∀ (ts : List ℚ) (mgr : Manager),
      (runCompletions mgr event ts).avarageLatency =
        ts.foldl updateAvarageLatency mgr.avarageLatency := by
  intro ts
  induction ts with
  | nil => intro mgr; rfl
  | cons t rest ih =>
    intro mgr
    show (runCompletions (CompleteEvent mgr event t).1 event rest).avarageLatency
        = rest.foldl updateAvarageLatency
            (updateAvarageLatency mgr.avarageLatency t)
    rw [ih]
    rfl

/-- Helper: once the running average is positive and the remaining
elapsed times are nonnegative, the avg equals zero test never fires
again, so the code fold and the plain halving recurrence agree. -/
theorem foldl_update_eq_smoothing :
    ∀ (ts : List ℚ) (a : ℚ), 0 < a → (∀ t ∈ ts, 0 ≤ t) →
      ts.foldl updateAvarageLatency a =
        ts.foldl (fun x t => (x + t) / 2) a := by
  intro ts
  induction ts with
  | nil => intro a _ _; rfl
  | cons t rest ih =>
    intro a ha hts
    have hne : a ≠ 0 := ne_of_gt ha
    have ht : (0 : ℚ) ≤ t := hts t (by simp)
    have hstep : updateAvarageLatency a t = (a + t) / 2 := by
      simp [updateAvarageLatency, hne]
    have hpos : 0 < (a + t) / 2 := by positivity
    show rest.foldl updateAvarageLatency (updateAvarageLatency a t) =
        rest.foldl (fun x t => (x + t) / 2) ((a + t) / 2)
    rw [hstep]
    exact ih ((a + t) / 2) hpos (fun u hu => hts u (by simp [hu]))

/-- C5, counterexample: a first completion with elapsed time 0 leaves
the running average at 0, so the second completion restarts the
smoothing instead of halving: after latencies 0 and 2 the manager
holds 2 while the claimed recurrence gives 1. -/
theorem claim_C5_counterexample :
    (runCompletions zeroManager sampleEvent [0, 2]).avarageLatency = 2 ∧
    specSmoothing [0, 2] = 1 ∧
    (runCompletions zeroManager sampleEvent [0, 2]).avarageLatency ≠
      specSmoothing [0, 2] := by
  refine ⟨?_, by norm_num [specSmoothing], ?_⟩ <;>
    rw [runCompletions_avarageLatency] <;>
    norm_num [updateAvarageLatency, specSmoothing, zeroManager]

/-- C5, amended: for every sequence of completions whose first elapsed
time is positive and whose later elapsed times are nonnegative, the
running average after the CompleteEvent calls equals the
exponential-smoothing recurrence with first value t1 and halving step;
the avg equal zero branch of the update only restarts the recurrence
when an elapsed time of exactly zero occurs. -/
theorem claim_C5_amended (event : LifecycleEvent) (t1 : ℚ) (rest : List ℚ) :
    0 < t1 → (∀ t ∈ rest, 0 ≤ t) →
    (runCompletions zeroManager event (t1 :: rest)).avarageLatency =
      specSmoothing (t1 :: rest) := by
  intro h1 hrest
  rw [runCompletions_avarageLatency]
  show rest.foldl updateAvarageLatency
      (updateAvarageLatency zeroManager.avarageLatency t1) = _
  have hz : updateAvarageLatency zeroManager.avarageLatency t1 = t1 := by
    simp [updateAvarageLatency, zeroManager]
  rw [hz]
  exact foldl_update_eq_smoothing rest t1 h1 hrest

/-- C5, witness: latencies 1 then 3 give average (1 + 3)/2 = 2 along
both the code update and the recurrence. -/
theorem claim_C5_witness :
    (0 : ℚ) < 1 ∧ (∀ t ∈ ([3] : List ℚ), 0 ≤ t) ∧
    (runCompletions zeroManager sampleEvent [1, 3]).avarageLatency =
      specSmoothing [1, 3] := by
  refine ⟨by norm_num, by norm_num, ?_⟩
  exact claim_C5_amended sampleEvent 1 [3] (by norm_num) (by norm_num)

/-- Helper: the heartbeat loop performs at most max(maxIterations,
count + 1) iterations: every branch returns the current iteration
number, and the loop only recurses while the counter is strictly
below maxIterations. -/
theorem heartbeatLoop_le (m : Int) (c a : Int → Bool) :
    ∀ (n : Nat) (count : Int), (m - count).toNat = n →
      heartbeatLoop m c a count ≤ max m (count + 1) := by
  intro n
  induction n using Nat.strong_induction_on with
  | _ n ih =>
    intro count hn
    rw [heartbeatLoop]
    split
    · exact le_max_right _ _
    · split
      · exact le_max_right _ _
      · split
        · exact le_max_right _ _
        · rename_i hc hm ha
          have hlt : count + 1 < m := by omega
          have hrec := ih ((m - (count + 1)).toNat) (by omega) (count + 1) rfl
          have hmax : max m (count + 1 + 1) = m := max_eq_left (by omega)
          rw [hmax] at hrec
          exact le_trans hrec (le_max_left _ _)

/-- C6, counterexample: for heartbeatInterval = 1, a non-zero interval,
the driver does not self-terminate within any iteration bound: the
int64 division interval/2 yields recommendedInterval = 0 and the
expression 3600/recommendedInterval divides by zero, so the goroutine
panics before the loop starts. -/
theorem claim_C6_counterexample :
    sendHeartbeat 1 (fun _ => false) (fun _ => false) = none := by
  rfl

/-- C6, amended: for every event with heartbeatInterval at least 2, the
driver uses recommendedInterval = heartbeatInterval/2 (int64 division)
and performs at most the ceiling of 3600/recommendedInterval loop
iterations before self-terminating, exiting earlier when
eventCompleted becomes true or a heartbeat API call fails; for
heartbeatInterval = 1 the maxIterations computation divides by zero. -/
theorem claim_C6_amended (interval : Int) (completed apiFails : Int → Bool) :
    2 ≤ interval →
    ∃ n, sendHeartbeat interval completed apiFails = some n ∧
      n ≤ specHeartbeatCeiling interval := by
  intro h2
  have htd : Int.tdiv interval 2 = interval / 2 :=
    Int.tdiv_eq_ediv (by omega) (by omega)
  have hr : 1 ≤ Int.tdiv interval 2 := by rw [htd]; omega
  have hr0 : ¬ Int.tdiv interval 2 = 0 := by omega
  refine ⟨heartbeatLoop (Int.tdiv 3600 (Int.tdiv interval 2))
    completed apiFails 0, ?_, ?_⟩
  · simp [sendHeartbeat, hr0]
  · have hm : Int.tdiv 3600 (Int.tdiv interval 2) =
        3600 / Int.tdiv interval 2 :=
      Int.tdiv_eq_ediv (by norm_num) (by omega)
    have hbound := heartbeatLoop_le (Int.tdiv 3600 (Int.tdiv interval 2))
      completed apiFails _ 0 rfl
    have hceil1 : 3600 / Int.tdiv interval 2 ≤ specHeartbeatCeiling interval :=
      Int.ediv_le_ediv (by omega) (by omega)
    have hceil2 : (1 : Int) ≤ specHeartbeatCeiling interval := by
      rw [specHeartbeatCeiling, Int.le_ediv_iff_mul_le (by omega)]
      omega
    calc heartbeatLoop (Int.tdiv 3600 (Int.tdiv interval 2))
          completed apiFails 0
        ≤ max (Int.tdiv 3600 (Int.tdiv interval 2)) 1 := by
          simpa using hbound
      _ ≤ specHeartbeatCeiling interval := by
          rw [hm]
          exact max_le hceil1 hceil2

/-- C6, witness: a 60 second heartbeat interval satisfies the
hypothesis and the bound. -/
theorem claim_C6_witness :
    (2 : Int) ≤ 60 ∧
    ∃ n, sendHeartbeat 60 (fun _ => false) (fun _ => false) = some n ∧
      n ≤ specHeartbeatCeiling 60 := by
  exact ⟨by norm_num,
    claim_C6_amended 60 (fun _ => false) (fun _ => false) (by norm_num)⟩

/-- C4, counterexample: with the dedup check and the append as the
separate operations they are in the code, two workers holding the same
event can both pass IsAlreadyExist on the empty queue and then both
append, reaching a state whose work queue holds two entries with the
same (requestId, instanceId) pair. -/
theorem claim_C4_counterexample :
    QueueReachable { queue := [sampleEvent, sampleEvent], checked := [] } ∧
    ¬ NoDuplicateKeys [sampleEvent, sampleEvent] := by
  constructor
  · have h1 : QueueStep { queue := [], checked := [] }
        { queue := [], checked := [sampleEvent] } :=
      QueueStep.dedupCheck { queue := [], checked := [] } sampleEvent rfl
    have h2 : QueueStep { queue := [], checked := [sampleEvent] }
        { queue := [], checked := [sampleEvent, sampleEvent] } :=
      QueueStep.dedupCheck { queue := [], checked := [sampleEvent] }
        sampleEvent rfl
    have h3 : QueueStep { queue := [], checked := [sampleEvent, sampleEvent] }
        { queue := [sampleEvent], checked := [sampleEvent] } := by
      have h := QueueStep.addEvent
        { queue := [], checked := [sampleEvent, sampleEvent] }
        sampleEvent (by simp)
      simpa using h
    have h4 : QueueStep { queue := [sampleEvent], checked := [sampleEvent] }
        { queue := [sampleEvent, sampleEvent], checked := [] } := by
      have h := QueueStep.addEvent
        { queue := [sampleEvent], checked := [sampleEvent] }
        sampleEvent (by simp)
      simpa using h
    exact (((Relation.ReflTransGen.refl.tail h1).tail h2).tail h3).tail h4
  · intro h
    have := (List.pairwise_cons.mp h).1 sampleEvent (by simp)
    exact this ⟨rfl, rfl⟩

/-- Helper: every atomic operation preserves the absence of duplicate
(requestId, instanceId) pairs in the work queue: an append is guarded
by the dedup check on the queue it lands in, removal and the no-op
operations cannot create duplicates. -/
theorem atomicQueueStep_preserves (q q2 : List LifecycleEvent)
    (h : AtomicQueueStep q q2) (inv : NoDuplicateKeys q) :
    NoDuplicateKeys q2 := by
  cases h with
  | workerAddEvent ev hfalse =>
    unfold NoDuplicateKeys at inv ⊢
    rw [List.pairwise_append]
    refine ⟨inv, by simp, ?_⟩
    intro a ha b hb
    have hb2 : b = ev := by simpa using hb
    subst hb2
    simp only [IsAlreadyExist, List.any_eq_false, Bool.and_eq_true,
      beq_iff_eq, not_and] at hfalse
    intro hc
    exact absurd hc.2 (hfalse a ha hc.1)
  | workerRejectDuplicate ev _ => exact inv
  | completeEvent ev => exact inv.sublist (List.filter_sublist _)
  | failEvent => exact inv
  | rejectEvent => exact inv

/-- C4, amended: when each worker dedup check executes atomically with
its AddEvent append (no other queue operation between the two), every
reachable work queue is free of duplicate (requestId, instanceId)
pairs, under any sequence of worker check-adds, duplicate rejections,
CompleteEvent, FailEvent and RejectEvent operations; with the check
and the append as separate steps, as in the code, a duplicate can
slip in between them. -/
theorem claim_C4_amended (q : List LifecycleEvent) :
    AtomicQueueReachable q → NoDuplicateKeys q := by
  intro h
  unfold AtomicQueueReachable at h
  induction h with
  | refl => simp [NoDuplicateKeys]
  | tail hab hbc ih => exact atomicQueueStep_preserves _ _ hbc ih

/-- C4, witness: one atomic check-add from the empty queue reaches the
single-entry queue, which has no duplicate pair. -/
theorem claim_C4_witness :
    AtomicQueueReachable [sampleEvent] ∧ NoDuplicateKeys [sampleEvent] := by
  have hreach : AtomicQueueReachable [sampleEvent] :=
    Relation.ReflTransGen.single
      (AtomicQueueStep.workerAddEvent [] sampleEvent rfl)
  exact ⟨hreach, claim_C4_amended [sampleEvent] hreach⟩

end LifecycleManager
